import Mathlib

/-!
# Verification of the bpgsql PostgreSQL client (protocol 2.0)

Shallow embedding of `bpgsql.py` (module-level `parseDSN`, class `PGClient`
with its packet handlers, `_LargeObject`) together with theorems checking the
natural-language specification against it.

Conventions of the embedding:
* Python byte strings are `List Nat` with every element `< 256`; the socket
  input is a plain byte list and `PGClient.__read_bytes` becomes `readBytes`,
  which fails (`none`) when fewer bytes than requested are available (the
  Python code would block waiting for more socket data there).
* Python `dict`s (which preserve insertion order and overwrite on repeated
  keys) are association lists manipulated by `dictSet`.
* Exceptions become `Except` values; `PyErr` enumerates the Python-level
  errors the modelled fragments can raise.
-/

namespace Bpgsql

/-- Python-level errors raised by the modelled code paths. -/
inductive PyErr where
  /-- Python `AttributeError`: attribute lookup on an object failed. -/
  | attributeError
  /-- `bpgsql.DatabaseError(msg)`. -/
  | databaseError (msg : String)
  /-- `bpgsql.InterfaceError`. -/
  | interfaceError
  /-- Python `KeyError`/`TypeError` from touching a missing dict key or `None`. -/
  | keyError
  /-- Not a Python error: marks a read past the bytes supplied to the model
  (the client would block on `socket.recv` waiting for more data there). -/
  | wouldBlock
  /-- Python `IndexError`: the bounds error of out-of-range cursor scrolls. -/
  | indexError
  deriving Repr, DecidableEq

/-! ## Byte-stream primitives (`PGClient.__read_bytes`, `struct.unpack`) -/

/-- Python byte strings: lists of byte values. -/
abbrev Bytes := List Nat

/-- `PGClient.__read_bytes(n)`: take exactly `n` bytes off the front of the
input, `none` when the stream does not hold that many (the Python code would
block on `socket.recv`, or raise `OperationalError` on EOF). -/
def readBytes (n : Nat) (input : Bytes) : Option (Bytes × Bytes) :=
  if n ≤ input.length then some (input.take n, input.drop n) else none

/-- Big-endian accumulation of bytes into an unsigned integer, exactly as the
row decoder's `null_bits = (null_bits << 8) | ord(ch)` loop. -/
def beNat (bs : Bytes) : Nat :=
  bs.foldl (fun acc b => (acc <<< 8) ||| b) 0

/-- Encode `v` as `n` big-endian bytes (the inverse used to build concrete
wire inputs; `struct.pack` with `!i`-style formats). -/
def natToBeBytes : Nat → Nat → Bytes
  | 0, _ => []
  | n + 1, v => natToBeBytes n (v / 256) ++ [v % 256]

/-- 4-byte big-endian encoding, as `struct.pack('!i', v)` for `0 ≤ v < 2^31`. -/
def be4 (v : Nat) : Bytes := natToBeBytes 4 v

/-- `PGClient.__read_bytes` in the `Except` monad used by the packet
handlers: missing data is `wouldBlock`. -/
def readBytesE (n : Nat) (input : Bytes) : Except PyErr (Bytes × Bytes) :=
  match readBytes n input with
  | some r => .ok r
  | none => .error .wouldBlock

theorem readBytes_exact {l : Bytes} {n : Nat} (h : l.length = n) (rest : Bytes) :
    readBytes n (l ++ rest) = some (l, rest) := by
  subst h
  simp [readBytes, List.take_left, List.drop_left]

theorem readBytesE_exact {l : Bytes} {n : Nat} (h : l.length = n) (rest : Bytes) :
    readBytesE n (l ++ rest) = .ok (l, rest) := by
  simp [readBytesE, readBytes_exact h]

/-! ## DSN parsing (`parseDSN`, bpgsql.py lines 70-114) -/

/-- The whitespace set of Python's `str.strip()`. -/
def pySpace (c : Char) : Bool :=
  c = ' ' || c = '\t' || c = '\n' || c = '\r' || c = Char.ofNat 11 || c = Char.ofNat 12

/-- Python `str.strip()` on a character list. -/
def pyStrip (l : List Char) : List Char :=
  ((l.dropWhile pySpace).reverse.dropWhile pySpace).reverse

/-- Python `dict` assignment `d[k] = v`: overwrite in place if the key is
present, append otherwise (insertion order preserved). -/
def dictSet (k v : String) : List (String × String) → List (String × String)
  | [] => [(k, v)]
  | (k', v') :: rest =>
      if k' = k then (k', v) :: rest else (k', v') :: dictSet k v rest

/-- The mutable locals of `parseDSN`'s character loop: `state`, `buf`,
`keyword`, `result`. -/
structure DSNState where
  state : Nat
  buf : List Char
  keyword : String
  result : List (String × String)
  deriving Repr, DecidableEq

/-- One iteration of `parseDSN`'s `for ch in s.strip()` loop. -/
def dsnStep (st : DSNState) (ch : Char) : DSNState :=
  if st.state = 1 then          -- reading keyword
    if ch = '=' then
      { st with keyword := (pyStrip st.buf).asString, buf := [], state := 2 }
    else
      { st with buf := st.buf ++ [ch] }
  else if st.state = 2 then     -- have read '='
    if ch = '\'' then
      { st with state := 3 }
    else if ch ≠ ' ' then
      { st with buf := [ch], state := 4 }
    else
      st
  else if st.state = 3 then     -- reading single-quoted val
    if ch = '\'' then
      { st with result := dictSet st.keyword st.buf.asString st.result,
                buf := [], state := 1 }
    else
      { st with buf := st.buf ++ [ch] }
  else if st.state = 4 then     -- reading non-quoted val
    if ch = ' ' then
      { st with result := dictSet st.keyword st.buf.asString st.result,
                buf := [], state := 1 }
    else
      { st with buf := st.buf ++ [ch] }
  else
    st

/-- The state after `parseDSN` has consumed all of `s.strip()`. -/
def dsnRun (s : String) : DSNState :=
  (pyStrip s.data).foldl dsnStep ⟨1, [], "", []⟩

/-- `parseDSN(s)`.  The argument is `Option String` because the Python
function also accepts `None`; `if not s` maps both `None` and `""` to the
empty dict.  After the loop, only state 4 (an unquoted value cut off by end
of input) records the trailing pair. -/
def parseDSN (s : Option String) : List (String × String) :=
  match s with
  | none => []
  | some s =>
      if s = "" then []
      else
        let st := dsnRun s
        if st.state = 4 then dictSet st.keyword st.buf.asString st.result
        else st.result

/-- C4: the specified DSN parses, evaluated on the code. -/
theorem parseDSN_spec_examples :
    parseDSN none = [] ∧
    parseDSN (some "") = [] ∧
    parseDSN (some "foo=bar") = [("foo", "bar")] ∧
    parseDSN (some "foo='bar with space'") = [("foo", "bar with space")] ∧
    parseDSN (some "a=x b='y z' c= w") = [("a", "x"), ("b", "y z"), ("c", "w")] := by
  refine ⟨rfl, by decide, by decide, by decide, by decide⟩

/-- C10: when the input runs out while the loop is still reading a keyword
(state 1), just after an `=` with no value character yet (state 2), or inside
an unterminated single-quoted value (state 3), `parseDSN` returns exactly the
pairs recorded before the trailing fragment — the trailing key is not added
and no partial value is recorded (and no error is raised: the function is
total); only an unquoted value cut off by end of input (state 4) records the
trailing pair.  The concrete conjuncts exercise each trailing form. -/
theorem parseDSN_trailing_fragment_dropped :
    (∀ s : String, s ≠ "" →
      ((dsnRun s).state = 1 ∨ (dsnRun s).state = 2 ∨ (dsnRun s).state = 3 →
        parseDSN (some s) = (dsnRun s).result) ∧
      ((dsnRun s).state = 4 →
        parseDSN (some s) =
          dictSet (dsnRun s).keyword (dsnRun s).buf.asString (dsnRun s).result)) ∧
    parseDSN (some "a=x trailingkey") = [("a", "x")] ∧
    parseDSN (some "a=x trailingkey=") = [("a", "x")] ∧
    parseDSN (some "a=x trailingkey='never closed") = [("a", "x")] ∧
    parseDSN (some "a=x trailingkey=v") = [("a", "x"), ("trailingkey", "v")] := by
  refine ⟨fun s hs => ⟨fun hst => ?_, fun hst => ?_⟩, by decide, by decide, by decide, by decide⟩
  · have h4 : (dsnRun s).state ≠ 4 := by rcases hst with h | h | h <;> omega
    simp [parseDSN, hs, h4]
  · simp [parseDSN, hs, hst]

/-- Witness for `parseDSN_trailing_fragment_dropped` at `"k=v x"` (final
state 1) and `"k='q"` (final state 3). -/
theorem parseDSN_trailing_fragment_dropped_witness :
    parseDSN (some "k=v x") = (dsnRun "k=v x").result ∧
    parseDSN (some "k='q") = (dsnRun "k='q").result :=
  ⟨(parseDSN_trailing_fragment_dropped.1 "k=v x" (by decide)).1 (Or.inl (by decide)),
   (parseDSN_trailing_fragment_dropped.1 "k='q" (by decide)).1 (Or.inr (Or.inr (by decide)))⟩

/-! ## Parameter substitution (`PGClient.execute`, bpgsql.py lines 590-599) -/

/-- Python `str.replace(old, new)` restricted to a one-character `old`
(the only shape `execute` uses). -/
def charReplace (old : Char) (new : List Char) : List Char → List Char
  | [] => []
  | c :: cs => (if c = old then new else [c]) ++ charReplace old new cs

/-- A value passed in `execute`'s `args` tuple: `None`, a string, or a
number (the code leaves anything that is not `None` or a string untouched;
`%s`/`%d` formatting then renders a number in decimal, unquoted). -/
inductive SqlParam where
  | null
  | str (s : String)
  | int (n : Int)
  deriving Repr, DecidableEq

/-- The escaping `execute` applies to a string argument:
`a.replace('\\', '\\\\').replace("'", "\\'")` — first double every
backslash, then put a backslash before every single quote. -/
def escapeStr (s : List Char) : List Char :=
  charReplace '\'' ['\\', '\''] (charReplace '\\' ['\\', '\\'] s)

/-- The text `execute` substitutes for one argument: `None` becomes the bare
literal `NULL`, a string is escaped and surrounded by single quotes, a number
is rendered unquoted. -/
def convertParam : SqlParam → List Char
  | .null => "NULL".data
  | .str s => '\'' :: (escapeStr s.data ++ ['\''])
  | .int n => (toString n).data

/-- Python `%`-formatting restricted to `%s` conversions, the shape used with
the converted argument list (`str % tuple(na)`). -/
def pyFormatS : List Char → List (List Char) → List Char
  | [], _ => []
  | '%' :: 's' :: rest, a :: args => a ++ pyFormatS rest args
  | c :: rest, args => c :: pyFormatS rest args

/-- The query message `execute` sends: `'Q' + str + '\0'`, where `str` has
had the converted parameters substituted when `args` is supplied. -/
def executeSendText (sql : String) (args : Option (List SqlParam)) : List Char :=
  let t := match args with
    | none => sql.data
    | some ps => pyFormatS sql.data (ps.map convertParam)
  'Q' :: (t ++ [Char.ofNat 0])

/-- The escaping as the spec words it — "doubling embedded quote and
backslash characters" (refinement comparison definition written from the
spec's words, not from the source). -/
def specDoubledEscape (s : List Char) : List Char :=
  charReplace '\'' ['\'', '\''] (charReplace '\\' ['\\', '\\'] s)

/-- Character-wise description of the net effect of `escapeStr`. -/
def escapeChar (c : Char) : List Char :=
  if c = '\\' then ['\\', '\\'] else if c = '\'' then ['\\', '\''] else [c]

theorem charReplace_append (old : Char) (new : List Char) (l₁ l₂ : List Char) :
    charReplace old new (l₁ ++ l₂) = charReplace old new l₁ ++ charReplace old new l₂ := by
  induction l₁ with
  | nil => rfl
  | cons c cs ih => simp [charReplace, ih]

theorem escapeStr_eq_join_map (s : List Char) :
    escapeStr s = (s.map escapeChar).flatten := by
  induction s with
  | nil => rfl
  | cons c cs ih =>
      by_cases hb : c = '\\'
      · subst hb
        simp only [escapeStr, charReplace, if_pos rfl, charReplace_append] at *
        simpa [charReplace, escapeChar] using ih
      · by_cases hq : c = '\''
        · subst hq
          simp only [escapeStr, charReplace, if_neg (by decide : ('\'' : Char) ≠ '\\'),
            List.singleton_append] at *
          simpa [charReplace, escapeChar] using ih
        · simp only [escapeStr, charReplace, if_neg hb, List.singleton_append] at *
          simpa [charReplace, hb, hq, escapeChar] using ih

/-- C7 counterexample: for the parameter string `a'b`, the code substitutes
`'a\'b'` (backslash-escaped quote), not the `'a''b'` (doubled quote) that the
claim describes. -/
theorem execute_quote_doubling_counterexample :
    convertParam (.str "a'b") = "'a\\'b'".data ∧
    '\'' :: (specDoubledEscape "a'b".data ++ ['\'']) = "'a''b'".data ∧
    convertParam (.str "a'b") ≠ '\'' :: (specDoubledEscape "a'b".data ++ ['\'']) := by
  refine ⟨by decide, by decide, by decide⟩

/-- C7 amended: when `execute` is given a parameter sequence, each `None`
parameter is substituted as the unquoted literal `NULL`; each string
parameter is escaped by doubling embedded backslashes and prefixing each
embedded single quote with a backslash (backslashes are doubled first, so the
net effect maps `\` to `\\` and `'` to `\'` character-wise) and is then
surrounded by single quotes; numeric parameters are substituted unquoted —
all before the query text is sent to the server. -/
theorem execute_param_substitution :
    convertParam .null = "NULL".data ∧
    (∀ s : String, convertParam (.str s) = '\'' :: ((s.data.map escapeChar).flatten ++ ['\''])) ∧
    (∀ n : Int, convertParam (.int n) = (toString n).data) ∧
    executeSendText "INSERT INTO t VALUES (%s, %s, %s)"
        (some [.null, .str "a'b", .int 42]) =
      "QINSERT INTO t VALUES (NULL, 'a\\'b', 42)".data ++ [Char.ofNat 0] := by
  refine ⟨rfl, fun s => ?_, fun n => rfl, by decide⟩
  simp [convertParam, escapeStr_eq_join_map]

/-! ## Startup / authentication (`PGClient._pkt_R`, bpgsql.py lines 447-477)

The `md5` and `crypt` primitives come from external Python libraries
(`import md5`, `import crypt`), so they enter the embedding as abstract
function parameters; `hexdigest` reproduces `md5.new(...).hexdigest()` on
top of the abstract raw digest. -/

/-- ASCII bytes of a Lean string literal (Python 2 `str` is a byte string). -/
def strBytes (s : String) : Bytes := s.data.map Char.toNat

/-- Lowercase hexadecimal digit, as ASCII byte value. -/
def hexChar (n : Nat) : Nat := if n < 10 then 48 + n else 87 + n

/-- `md5.new(data).hexdigest()`: two lowercase hex characters per raw digest
byte, as a byte string. -/
def hexdigest (md5 : Bytes → Bytes) (data : Bytes) : Bytes :=
  (md5 data).flatMap fun b => [hexChar (b / 16), hexChar (b % 16)]

/-- What a startup-response handler run does besides consuming input. -/
inductive AuthAction where
  /-- `self.__authenticated = 1`. -/
  | markAuthenticated
  /-- `self.__send(data)`. -/
  | send (data : Bytes)
  deriving Repr, DecidableEq

/-- `PGClient._pkt_R`: read the 4-byte status code and dispatch.  Codes 1, 2
and unknown codes raise `InterfaceError`; code 0 marks the session
authenticated; code 3 sends the cleartext password; code 4 reads a 2-byte
salt and sends `crypt(passwd, salt)`; code 5 reads a 4-byte salt and sends
the double-md5 response.  Each password-style reply is framed as
`pack('!i', len(payload)+5) + payload + '\0'` (code 5 folds the trailing
null into `m` first, so its prefix is `len(m)+4` over the same bytes). -/
def pkt_R (md5 : Bytes → Bytes) (crypt : Bytes → Bytes → Bytes)
    (passwd userid : Bytes) (input : Bytes) : Except PyErr (AuthAction × Bytes) := do
  let (codeB, rest) ← readBytesE 4 input
  let code := beNat codeB
  if code = 0 then
    return (.markAuthenticated, rest)
  else if code = 1 then
    throw .interfaceError
  else if code = 2 then
    throw .interfaceError
  else if code = 3 then
    return (.send (be4 (passwd.length + 5) ++ passwd ++ [0]), rest)
  else if code = 4 then do
    let (salt, rest) ← readBytesE 2 rest
    let cpwd := crypt passwd salt
    return (.send (be4 (cpwd.length + 5) ++ cpwd ++ [0]), rest)
  else if code = 5 then do
    let (salt, rest) ← readBytesE 4 rest
    let m1 := hexdigest md5 (passwd ++ userid)
    let m2 := hexdigest md5 (m1 ++ salt)
    let m := strBytes "md5" ++ m2 ++ [0]
    return (.send (be4 (m.length + 4) ++ m), rest)
  else
    throw .interfaceError

/-- The code-5 response body as the spec describes it: the scheme tag `md5`
followed by `hexdigest(md5(hexdigest(md5(password + username)) + salt))` —
the inner hash's hex digest (text, not raw digest bytes) concatenated with
the salt before the outer hash. -/
def md5AuthResponse (md5 : Bytes → Bytes) (password username salt : Bytes) : Bytes :=
  strBytes "md5" ++ hexdigest md5 (hexdigest md5 (password ++ username) ++ salt)

/-- C3: on authentication status code 5 the client consumes a 4-byte salt
and sends exactly the length prefix, the `md5`-tagged double-hash body of
`md5AuthResponse`, and the terminating null — for every hash function, every
password/user, and in particular for password `"secret"`, user `"u"`, salt
`[1,2,3,4]`. -/
theorem pkt_R_code5_double_md5 (md5 : Bytes → Bytes) (crypt : Bytes → Bytes → Bytes)
    (passwd userid salt rest : Bytes) (hsalt : salt.length = 4) :
    pkt_R md5 crypt passwd userid (be4 5 ++ (salt ++ rest)) =
      .ok (.send (be4 ((md5AuthResponse md5 passwd userid salt).length + 5) ++
                    (md5AuthResponse md5 passwd userid salt ++ [0])), rest) := by
  have h4 : (be4 5).length = 4 := by decide
  have hcode : beNat (be4 5) = 5 := by decide
  simp only [pkt_R, readBytesE_exact h4, readBytesE_exact hsalt, hcode, bind, Except.bind,
    md5AuthResponse]
  norm_num
  simp [List.append_assoc, List.length_append, strBytes]
  have hl : 3 + (List.length (hexdigest md5 (hexdigest md5 (passwd ++ userid) ++ salt)) + 1) + 4 =
      3 + List.length (hexdigest md5 (hexdigest md5 (passwd ++ userid) ++ salt)) + 5 := by
    omega
  rw [hl]
  rfl

/-- Witness for `pkt_R_code5_double_md5` at the spec's concrete vector:
password `"secret"`, user `"u"`, salt bytes `[1,2,3,4]` (with an arbitrary
concrete stand-in for the external md5 primitive). -/
theorem pkt_R_code5_double_md5_witness :
    pkt_R (fun _ => List.replicate 16 0) (fun p _ => p)
        (strBytes "secret") (strBytes "u") (be4 5 ++ ([1, 2, 3, 4] ++ [])) =
      .ok (.send (be4 ((md5AuthResponse (fun _ => List.replicate 16 0)
                          (strBytes "secret") (strBytes "u") [1, 2, 3, 4]).length + 5) ++
                    (md5AuthResponse (fun _ => List.replicate 16 0)
                        (strBytes "secret") (strBytes "u") [1, 2, 3, 4] ++ [0])), []) :=
  pkt_R_code5_double_md5 (fun _ => List.replicate 16 0) (fun p _ => p)
    (strBytes "secret") (strBytes "u") [1, 2, 3, 4] [] (by decide)

/-! ## Row decoding (`PGClient.__read_row`, bpgsql.py lines 255-290) -/

/-- `null_byte_count = (self.__field_count + 7) >> 3`. -/
def nullByteCount (fieldCount : Nat) : Nat := (fieldCount + 7) >>> 3

/-- One decoded field: `none` is SQL null, `some bytes` a present value. -/
abbrev Field := Option Bytes

/-- The per-field loop of `__read_row` (arguments: the fixed null bitmap,
the walking field mask, the number of fields left, the input).  A set mask
bit means a 4-byte length prefix (minus 4 in text mode) followed by that
many payload bytes; a clear bit consumes nothing and yields null; the mask
shifts right one bit per field.

The prefix is read by `unpack('!i', ...)` (signed).  A prefix decoding to a
negative payload length (sign bit set, or a text-mode prefix below 4) hands
a negative count to `__read_bytes`, whose result then depends on how many
bytes happen to be buffered from the socket rather than on the stream
contents alone, so the embedding reports failure (`none`) there. -/
def readFields (ascii : Bool) (nullBits : Nat) :
    Nat → Nat → Bytes → Option (List Field × Bytes)
  | _, 0, input => some ([], input)
  | fieldMask, n + 1, input =>
    if nullBits &&& fieldMask ≠ 0 then
      match readBytes 4 input with
      | none => none
      | some (pre, rest) =>
        let v := beNat pre
        if 2 ^ 31 ≤ v ∨ (ascii ∧ v < 4) then none
        else
          let fieldSize := if ascii then v - 4 else v
          match readBytes fieldSize rest with
          | none => none
          | some (payload, rest2) =>
            match readFields ascii nullBits (fieldMask >>> 1) n rest2 with
            | none => none
            | some (row, rest3) => some (some payload :: row, rest3)
    else
      match readFields ascii nullBits (fieldMask >>> 1) n input with
      | none => none
      | some (row, rest3) => some (none :: row, rest3)

/-- `PGClient.__read_row`: read the `ceil(N/8)`-byte null bitmap
(most-significant byte first), start the mask at the bitmap's top bit
(`128 << (null_byte_count - 1) * 8`; the source leaves it at `128` when no
bitmap byte is read, which only happens for `N = 0` where no field is read
either), then run the field loop. -/
def readRow (ascii : Bool) (fieldCount : Nat) (input : Bytes) :
    Option (List Field × Bytes) :=
  let nbc := nullByteCount fieldCount
  match readBytes nbc input with
  | none => none
  | some (nullBytes, rest) =>
    let nullBits := beNat nullBytes
    let fieldMask := if nbc = 0 then 128 else 128 <<< ((nbc - 1) * 8)
    readFields ascii nullBits fieldMask fieldCount rest

/-- The claim's presence bitmap for a field list whose first field sits at
bit `k` (most-significant bit first): field `i` occupies bit `k - i`. -/
def presenceBits : List Field → Nat → Nat
  | [], _ => 0
  | f :: fs, k => (if f.isSome then 2 ^ k else 0) ||| presenceBits fs (k - 1)

/-- The claim's field payloads: per present field a 4-byte length prefix
(payload length plus 4 in text mode, exact in binary mode) then the payload;
nothing for a null field. -/
def rowPayload (ascii : Bool) : List Field → Bytes
  | [] => []
  | none :: fs => rowPayload ascii fs
  | some p :: fs =>
      be4 (p.length + if ascii then 4 else 0) ++ (p ++ rowPayload ascii fs)

/-- A full encoded row as the claim describes it: `ceil(N/8)` bitmap bytes,
most-significant byte first, then the field payloads. -/
def encodeRow (ascii : Bool) (fields : List Field) : Bytes :=
  natToBeBytes (nullByteCount fields.length)
      (presenceBits fields (8 * nullByteCount fields.length - 1)) ++
    rowPayload ascii fields

theorem natToBeBytes_length (n v : Nat) : (natToBeBytes n v).length = n := by
  induction n generalizing v with
  | zero => rfl
  | succ n ih => simp [natToBeBytes, ih]

theorem beNat_snoc (bs : Bytes) (b : Nat) :
    beNat (bs ++ [b]) = (beNat bs <<< 8) ||| b := by
  simp [beNat, List.foldl_append]

theorem shiftLeft8_or_eq (a b : Nat) (hb : b < 256) :
    (a <<< 8) ||| b = 256 * a + b := by
  have h := Nat.mul_add_lt_is_or (i := 8) (b := b) (by simpa using hb) a
  rw [Nat.shiftLeft_eq]
  calc a * 2 ^ 8 ||| b = 2 ^ 8 * a ||| b := by rw [Nat.mul_comm]
    _ = 2 ^ 8 * a + b := h.symm
    _ = 256 * a + b := by norm_num

theorem beNat_natToBeBytes {n v : Nat} (h : v < 256 ^ n) :
    beNat (natToBeBytes n v) = v := by
  induction n generalizing v with
  | zero =>
      have : v = 0 := by simpa using Nat.lt_one_iff.mp (by simpa using h)
      simp [this, natToBeBytes, beNat]
  | succ n ih =>
      have hdiv : v / 256 < 256 ^ n := by
        apply Nat.div_lt_of_lt_mul
        calc v < 256 ^ (n + 1) := h
          _ = 256 ^ n * 256 := by rw [Nat.pow_succ]
          _ = 256 * 256 ^ n := by rw [Nat.mul_comm]
      rw [natToBeBytes, beNat_snoc, ih hdiv,
        shiftLeft8_or_eq _ _ (Nat.mod_lt _ (by norm_num))]
      omega

theorem natToBeBytes_zero (n : Nat) : natToBeBytes n 0 = List.replicate n 0 := by
  induction n with
  | zero => rfl
  | succ n ih => simp [natToBeBytes, ih, List.replicate_succ']

theorem presenceBits_lt {fs : List Field} {k : Nat} (h : fs.length ≤ k + 1) :
    presenceBits fs k < 2 ^ (k + 1) := by
  induction fs generalizing k with
  | nil => simp [presenceBits]
  | cons f fs ih =>
      have hhead : (if f.isSome then 2 ^ k else 0) < 2 ^ (k + 1) := by
        split
        · exact Nat.pow_lt_pow_succ (by norm_num)
        · exact Nat.pos_pow_of_pos (k + 1) (by norm_num)
      cases fs with
      | nil =>
          simpa [presenceBits] using Nat.or_lt_two_pow hhead
            (Nat.pos_pow_of_pos (k + 1) (by norm_num))
      | cons g gs =>
          have hk : 1 ≤ k := by simp at h; omega
          have htail : presenceBits (g :: gs) (k - 1) < 2 ^ (k + 1) := by
            have h' : (g :: gs).length ≤ (k - 1) + 1 := by simp at h ⊢; omega
            have := ih h'
            calc presenceBits (g :: gs) (k - 1) < 2 ^ (k - 1 + 1) := this
              _ ≤ 2 ^ (k + 1) := Nat.pow_le_pow_right (by norm_num) (by omega)
          exact Nat.or_lt_two_pow hhead htail

theorem presenceBits_testBit {fs : List Field} {k : Nat} (h : fs.length ≤ k + 1) :
    ∀ j (hj : j < fs.length),
      (presenceBits fs k).testBit (k - j) = (fs.get ⟨j, hj⟩).isSome := by
  induction fs generalizing k with
  | nil => intro j hj; simp at hj
  | cons f fs ih =>
      intro j hj
      cases j with
      | zero =>
          have htail : (presenceBits fs (k - 1)).testBit k = false := by
            apply Nat.testBit_lt_two_pow
            rcases Nat.eq_zero_or_pos k with hk | hk
            · have : fs = [] := by
                simp at h
                exact List.eq_nil_of_length_eq_zero (by omega)
              simp [this, presenceBits, hk]
            · have h' : fs.length ≤ (k - 1) + 1 := by simp at h; omega
              calc presenceBits fs (k - 1) < 2 ^ (k - 1 + 1) := presenceBits_lt h'
                _ ≤ 2 ^ k := Nat.pow_le_pow_right (by norm_num) (by omega)
          simp only [presenceBits, Nat.sub_zero, Nat.testBit_or, htail, Bool.or_false]
          split
          · rename_i hsome
            simp [Nat.testBit_two_pow_self, hsome, List.get]
          · rename_i hnone
            simp only [Bool.not_eq_true] at hnone
            simp [hnone, List.get]
      | succ j =>
          have hj' : j < fs.length := by simpa using Nat.lt_of_succ_lt_succ hj
          have hk : 1 ≤ k := by simp at h; omega
          have hne : k ≠ k - (j + 1) := by omega
          have hsub : k - (j + 1) = (k - 1) - j := by omega
          have h' : fs.length ≤ (k - 1) + 1 := by simp at h; omega
          have := ih h' j hj'
          simp only [presenceBits, Nat.testBit_or, hsub]
          rw [← hsub]
          have hhead : (if f.isSome then 2 ^ k else 0).testBit (k - (j + 1)) = false := by
            split
            · exact Nat.testBit_two_pow_of_ne hne
            · simp
          rw [hhead, Bool.false_or, hsub, this]
          rfl

theorem two_pow_shiftRight_one {k : Nat} (hk : 1 ≤ k) : 2 ^ k >>> 1 = 2 ^ (k - 1) := by
  rw [Nat.shiftRight_eq_div_pow, Nat.pow_one]
  conv_lhs => rw [show k = (k - 1) + 1 from by omega]
  rw [Nat.pow_succ, Nat.mul_div_cancel _ (by norm_num)]

theorem readFields_encode (ascii : Bool) (B : Nat) :
    ∀ (fs : List Field) (k : Nat) (rest : Bytes),
      fs.length ≤ k + 1 →
      (∀ j (hj : j < fs.length), B.testBit (k - j) = (fs.get ⟨j, hj⟩).isSome) →
      (∀ f ∈ fs, (f.getD []).length + 4 < 2 ^ 31) →
      readFields ascii B (2 ^ k) fs.length (rowPayload ascii fs ++ rest) =
        some (fs, rest)
  | [], k, rest, _, _, _ => by simp [readFields, rowPayload]
  | f :: fs, k, rest, hlen, hbits, hsz => by
    have hrec : readFields ascii B (2 ^ k >>> 1) fs.length
        (rowPayload ascii fs ++ rest) = some (fs, rest) := by
      cases fs with
      | nil => simp [readFields, rowPayload]
      | cons g gs =>
        have hk : 1 ≤ k := by simp at hlen; omega
        rw [two_pow_shiftRight_one hk]
        exact readFields_encode ascii B (g :: gs) (k - 1) rest
          (by simp at hlen ⊢; omega)
          (fun j hj => by
            have h := hbits (j + 1) (by simpa using Nat.succ_lt_succ hj)
            rw [show k - (j + 1) = (k - 1) - j from by omega] at h
            simpa using h)
          (fun p hp => hsz p (List.mem_cons_of_mem _ hp))
    have hbit0 := hbits 0 (by simp)
    simp only [Nat.sub_zero, List.get] at hbit0
    match f, hbit0 with
    | none, hbit0 =>
        have hand : B &&& 2 ^ k = 0 := by
          rw [Nat.and_two_pow, hbit0]
          simp
        simp [readFields, rowPayload, hand, hrec]
    | some p, hbit0 =>
        have hand : B &&& 2 ^ k ≠ 0 := by
          simp [Nat.and_two_pow, hbit0]
        have hp : p.length + 4 < 2 ^ 31 := by
          simpa using hsz (some p) (List.mem_cons_self _ _)
        have hL : (p.length + if ascii then 4 else 0) < 256 ^ 4 := by
          cases ascii <;> simp <;> omega
        have hpre := readBytes_exact
          (natToBeBytes_length 4 (p.length + if ascii then 4 else 0))
          (p ++ (rowPayload ascii fs ++ rest))
        have hval : beNat (natToBeBytes 4 (p.length + if ascii then 4 else 0)) =
            p.length + if ascii then 4 else 0 := beNat_natToBeBytes hL
        have hguard : ¬ (2 ^ 31 ≤ (p.length + if ascii then 4 else 0) ∨
            (ascii ∧ (p.length + if ascii then 4 else 0) < 4)) := by
          cases ascii <;> simp <;> omega
        have hfs : (if ascii then (p.length + if ascii then 4 else 0) - 4
            else (p.length + if ascii then 4 else 0)) = p.length := by
          cases ascii <;> simp
        simp only [List.length_cons, rowPayload, readFields, hand, ne_eq,
          not_false_eq_true, if_pos, be4, List.append_assoc, hpre, hval]
        rw [if_neg hguard, hfs, readBytes_exact rfl]
        simp [hrec]

theorem readFields_zero_bits (ascii : Bool) :
    ∀ (n fieldMask : Nat) (input : Bytes),
      readFields ascii 0 fieldMask n input = some (List.replicate n none, input)
  | 0, _, input => by simp [readFields]
  | n + 1, fieldMask, input => by
      simp [readFields, readFields_zero_bits ascii n (fieldMask >>> 1) input,
        List.replicate_succ]

theorem pow256_eq (n : Nat) : 256 ^ n = 2 ^ (8 * n) := by
  rw [show (256 : Nat) = 2 ^ 8 from rfl, ← Nat.pow_mul]

/-- C1: the row decoder reads a presence bitmap of exactly `ceil(N/8)` bytes,
most-significant byte first with the most-significant bit first, then for
each field left to right a set bit yields a 4-byte length prefix (payload
length = prefix − 4 in text mode, exactly the prefix in binary mode)
followed by that many payload bytes, and a clear bit consumes nothing and
yields null: decoding inverts the claim's encoding for every field list
(hence an all-present bitmap yields the `N` fields in order), and for every
`N` — including `0` and values beyond `32` — an all-absent (all-zero) bitmap
of `ceil(N/8)` bytes yields `N` nulls. -/
theorem readRow_bitmap_roundtrip (ascii : Bool) (fields : List Field) (rest : Bytes)
    (hsz : ∀ f ∈ fields, (f.getD []).length + 4 < 2 ^ 31) :
    readRow ascii fields.length (encodeRow ascii fields ++ rest) =
      some (fields, rest) ∧
    (∀ (n : Nat) (rest' : Bytes),
      readRow ascii n (List.replicate (nullByteCount n) 0 ++ rest') =
        some (List.replicate n none, rest')) := by
  constructor
  · rcases Nat.eq_zero_or_pos fields.length with h0 | hpos
    · have hnil : fields = [] := List.eq_nil_of_length_eq_zero h0
      subst hnil
      simp [readRow, encodeRow, nullByteCount, rowPayload, natToBeBytes, readBytes,
        beNat, readFields]
    · have hnbc : nullByteCount fields.length = (fields.length + 7) / 8 := by
        simp [nullByteCount, Nat.shiftRight_eq_div_pow]
      have hnbc1 : 1 ≤ nullByteCount fields.length := by rw [hnbc]; omega
      have hlen8 : fields.length ≤ 8 * nullByteCount fields.length := by
        rw [hnbc]; omega
      have hk : fields.length ≤ (8 * nullByteCount fields.length - 1) + 1 := by omega
      have hpb : presenceBits fields (8 * nullByteCount fields.length - 1) <
          256 ^ nullByteCount fields.length := by
        rw [pow256_eq]
        calc presenceBits fields (8 * nullByteCount fields.length - 1)
            < 2 ^ ((8 * nullByteCount fields.length - 1) + 1) := presenceBits_lt hk
          _ ≤ 2 ^ (8 * nullByteCount fields.length) :=
              Nat.pow_le_pow_right (by norm_num) (by omega)
      have hmask : (128 : Nat) <<< ((nullByteCount fields.length - 1) * 8) =
          2 ^ (8 * nullByteCount fields.length - 1) := by
        rw [Nat.shiftLeft_eq, show (128 : Nat) = 2 ^ 7 from rfl, ← Nat.pow_add]
        congr 1
        omega
      have hnbc0 : nullByteCount fields.length ≠ 0 := by omega
      simp only [readRow, encodeRow, List.append_assoc,
        readBytes_exact (natToBeBytes_length _ _), beNat_natToBeBytes hpb,
        if_neg hnbc0, hmask]
      exact readFields_encode ascii _ fields _ rest hk (presenceBits_testBit hk) hsz
  · intro n rest'
    have hrep : (List.replicate (nullByteCount n) 0 : Bytes) =
        natToBeBytes (nullByteCount n) 0 := (natToBeBytes_zero _).symm
    have hz : beNat (natToBeBytes (nullByteCount n) 0) = 0 :=
      beNat_natToBeBytes (Nat.pos_pow_of_pos _ (by norm_num))
    rw [hrep]
    simp only [readRow, readBytes_exact (natToBeBytes_length _ _), hz]
    exact readFields_zero_bits ascii n _ rest'

/-- Witness for `readRow_bitmap_roundtrip`: a 33-field text-mode row (first
field `[1]`, fields 2..32 null, last field `[2,3]`) round-trips, trailing
bytes `[7]` left over. -/
theorem readRow_bitmap_roundtrip_witness :
    readRow true (some [1] :: (List.replicate 31 (none : Field) ++ [some [2, 3]])).length
        (encodeRow true (some [1] :: (List.replicate 31 (none : Field) ++ [some [2, 3]])) ++ [7]) =
      some ((some [1] :: (List.replicate 31 (none : Field) ++ [some [2, 3]])), [7]) :=
  (readRow_bitmap_roundtrip true _ [7] (by decide)).1

/-! ## Result accumulation (`PGClient.execute` with handlers `_pkt_P`,
`_pkt_T`, `_pkt_D`, `_pkt_C`, `_pkt_E`, `_pkt_Z`, bpgsql.py lines 339-515
and 590-610)

These handlers manipulate `self.__result`, a Python list of dicts (or
`None` outside an execute).  The byte-level payload parsing is modelled
separately (`readRow`, `readBytesE`); here messages arrive with their
payloads already decoded, which is exactly the state-manipulation layer of
the handlers. -/

/-- One column descriptor from a RowDescription message:
`(fieldname, oid, type_size, type_modifier)`. -/
structure FieldDescr where
  name : String
  oid : Nat
  typeSize : Int
  typeMod : Int
  deriving Repr, DecidableEq

/-- One result dict: the keys `description`, `rows`, `completed`, `error`,
each absent (`none`) until the corresponding handler stores it. -/
structure Block where
  description : Option (List FieldDescr) := none
  rows : Option (List (List Field)) := none
  completed : Option String := none
  error : Option String := none
  deriving Repr, DecidableEq

/-- The empty dict `\x7b\x7d` a fresh block starts as. -/
def emptyBlock : Block := ⟨none, none, none, none⟩

/-- A backend message, payload already decoded. -/
inductive Msg where
  | P (cursorName : String)
  | T (descr : List FieldDescr)
  | D (row : List Field)
  | C (tag : String)
  | E (err : String)
  | Z
  deriving Repr, DecidableEq

/-- The session state the result handlers touch: `self.__result` (a list of
blocks, or `None` outside an execute) and `self.__ready`. -/
structure SessionState where
  result : Option (List Block)
  ready : Bool
  deriving Repr, DecidableEq

/-- Apply `f` to `self.__result[-1]`: fails like Python's `[-1]` on an empty
list. -/
def modifyLast (f : Block → Except PyErr Block) : List Block → Except PyErr (List Block)
  | [] => .error .keyError
  | [b] => (f b).map ([·])
  | b :: bs => (modifyLast f bs).map (b :: ·)

/-- Total version of `modifyLast` for stating what it does on a non-empty
list. -/
def withLast (f : Block → Block) : List Block → List Block
  | [] => []
  | [b] => [f b]
  | b :: bs => b :: withLast f bs

theorem modifyLast_ok (f : Block → Block) :
    ∀ (l : List Block), l ≠ [] →
      modifyLast (fun b => .ok (f b)) l = .ok (withLast f l)
  | [], h => absurd rfl h
  | [b], _ => rfl
  | b :: c :: bs, _ => by
      simp only [modifyLast, withLast, modifyLast_ok f (c :: bs) (by simp)]
      rfl

/-- Lift a last-block update into the session state; `self.__result` being
`None` is Python's `TypeError` on `None[-1]`. -/
def onResult (f : Block → Except PyErr Block) (st : SessionState) :
    Except PyErr SessionState :=
  match st.result with
  | none => .error .keyError
  | some bs => (modifyLast f bs).map fun bs' => { st with result := some bs' }

/-- `_pkt_P`: `self.__result[-1]['rows'] = []`. -/
def pkt_P (_cursorName : String) : SessionState → Except PyErr SessionState :=
  onResult fun b => .ok { b with rows := some [] }

/-- `_pkt_T`: store the row description on the current block. -/
def pkt_T (descr : List FieldDescr) : SessionState → Except PyErr SessionState :=
  onResult fun b => .ok { b with description := some descr }

/-- `_pkt_D` (via `__read_row`'s final append): append the decoded row to
`self.__result[-1]['rows']`; a missing `rows` key is Python's `KeyError`. -/
def pkt_D (row : List Field) : SessionState → Except PyErr SessionState :=
  onResult fun b =>
    match b.rows with
    | none => .error .keyError
    | some rs => .ok { b with rows := some (rs ++ [row]) }

/-- `_pkt_C`: store the completion tag on the current block and append a
fresh empty block. -/
def pkt_C (tag : String) (st : SessionState) : Except PyErr SessionState :=
  (onResult (fun b => .ok { b with completed := some tag }) st).map fun st' =>
    { st' with result := st'.result.map (· ++ [emptyBlock]) }

/-- `_pkt_E`: `if self.__result:` — with a (non-empty) block list in
progress, attach the error to the current block and append a fresh empty
block; otherwise (`None`, or an empty list, both falsy) raise
`DatabaseError`. -/
def pkt_E (err : String) (st : SessionState) : Except PyErr SessionState :=
  match st.result with
  | some (b :: bs) =>
      (modifyLast (fun bl => .ok { bl with error := some err }) (b :: bs)).map
        fun bs' => { st with result := some (bs' ++ [emptyBlock]) }
  | _ => .error (.databaseError err)

/-- `_pkt_Z`: mark the session ready. -/
def pkt_Z (st : SessionState) : Except PyErr SessionState :=
  .ok { st with ready := true }

/-- Dispatch one decoded message to its handler. -/
def step (st : SessionState) : Msg → Except PyErr SessionState
  | .P name => pkt_P name st
  | .T descr => pkt_T descr st
  | .D row => pkt_D row st
  | .C tag => pkt_C tag st
  | .E err => pkt_E err st
  | .Z => pkt_Z st

/-- `while not self.__ready: self.__read_response()`; running out of
messages before the ready mark would block on the socket. -/
def runUntilReady : SessionState → List Msg → Except PyErr SessionState
  | st, [] => if st.ready then .ok st else .error .wouldBlock
  | st, m :: ms =>
      if st.ready then .ok st
      else do
        let st' ← step st m
        runUntilReady st' ms

/-- `PGClient.execute`'s result-accumulation protocol: start from
`self.__result = [{}]`, dispatch until ready, return `self.__result[:-1]`. -/
def executeMsgs (msgs : List Msg) : Except PyErr (List Block) := do
  let st ← runUntilReady ⟨some [emptyBlock], false⟩ msgs
  match st.result with
  | some bs => .ok bs.dropLast
  | none => .error .keyError

/-- C2: an error arriving while a result-block sequence is in progress is
attached to the current (last) block and a fresh empty block is opened, with
no exception raised; an error arriving with no sequence in progress raises
`DatabaseError` immediately.  The concrete conjunct plays the
`"SELECT 1; BOGUS; SELECT 2"` message exchange: three blocks come back —
rows `[["1"]]`, an error-bearing block, rows `[["2"]]` — so the third
statement's success survives the second's failure. -/
theorem pkt_E_defers_error_in_progress :
    (∀ (err : String) (b : Block) (bs : List Block) (rdy : Bool),
      pkt_E err ⟨some (b :: bs), rdy⟩ =
        .ok ⟨some (withLast (fun bl => { bl with error := some err }) (b :: bs) ++ [emptyBlock]),
             rdy⟩) ∧
    (∀ (err : String) (rdy : Bool),
      pkt_E err ⟨none, rdy⟩ = .error (.databaseError err)) ∧
    executeMsgs
        [.P "blank", .T [⟨"?column?", 23, 4, -1⟩], .D [some (strBytes "1")], .C "SELECT",
         .E "ERROR: parser: syntax error at or near \"bogus\"",
         .P "blank", .T [⟨"?column?", 23, 4, -1⟩], .D [some (strBytes "2")], .C "SELECT",
         .Z] =
      .ok [⟨some [⟨"?column?", 23, 4, -1⟩], some [[some (strBytes "1")]], some "SELECT", none⟩,
           ⟨none, none, none, some "ERROR: parser: syntax error at or near \"bogus\""⟩,
           ⟨some [⟨"?column?", 23, 4, -1⟩], some [[some (strBytes "2")]], some "SELECT", none⟩] := by
  refine ⟨fun err b bs rdy => ?_, fun err rdy => rfl, by rfl⟩
  simp [pkt_E, modifyLast_ok (fun bl => { bl with error := some err }) (b :: bs) (by simp),
    Except.map]

/-! ## Attribute surface of `PGClient` (bpgsql.py lines 161-700)

`PGClient` is a Python 2 old-style class with no base, so attribute lookup
on an instance succeeds exactly for the class's methods and the instance
attributes its code assigns.  Names written `self.__x` inside the class are
mangled to `_PGClient__x`. -/

/-- Every attribute name a `PGClient` instance can carry: the methods
defined in the class body, and the instance attributes assigned in
`__init__`, `connect` and `_pkt_T`.  Neither `send` (line 393 calls
`self.send`; only the mangled `_PGClient__send` exists) nor
`_PGClient__funcs` (line 668 reads `self.__funcs`; only
`_PGClient__lo_funcs` is ever assigned) is among them. -/
def pgClientAttrNames : List String :=
  ["__init__", "__del__",
   "_PGClient__lo_init", "_PGClient__read_bytes", "_PGClient__read_string",
   "_PGClient__read_response", "_PGClient__read_row", "_PGClient__send",
   "_PGClient__wait_response",
   "_pkt_A", "_pkt_B", "_pkt_C", "_pkt_D", "_pkt_E", "_pkt_G", "_pkt_H",
   "_pkt_I", "_pkt_K", "_pkt_N", "_pkt_P", "_pkt_R", "_pkt_T", "_pkt_V",
   "_pkt_Z",
   "_lo_funcall", "close", "connect", "execute", "funcall",
   "lo_create", "lo_open", "lo_unlink", "wait_for_notify",
   "_PGClient__backend_pid", "_PGClient__backend_key", "_PGClient__socket",
   "_PGClient__input_buffer", "_PGClient__authenticated", "_PGClient__ready",
   "_PGClient__result", "_PGClient__notify_queue", "_PGClient__func_result",
   "_PGClient__lo_funcs", "_PGClient__lo_funcnames",
   "_PGClient__passwd", "_PGClient__userid", "_PGClient__field_count"]

/-! ## Copy-in (`PGClient._pkt_G`, bpgsql.py lines 372-393) -/

/-- The forwarding loop of `_pkt_G`: send each line read from the source
verbatim until a `readline` returns the empty string (end of source) or the
sentinel line `\.` (backslash, period, newline); the source is the list of
successive `readline` results, an exhausted list reading as `""`. -/
def copyInForwarded : List String → List String
  | [] => []
  | s :: rest => if s = "" ∨ s = "\\.\n" then [] else s :: copyInForwarded rest

/-- `PGClient._pkt_G`: forward lines, inject a newline if the last forwarded
line lacked one, then execute `self.send('\\.\n')`.  Returns the lines that
reach `__send` and the handler's outcome.  Because `send` is not an
attribute of `PGClient` (only the name-mangled private `_PGClient__send`
is), the final statement raises `AttributeError` and the sentinel line is
never transmitted. -/
def pkt_G (stdinLines : List String) : List String × Except PyErr Unit :=
  let fwd := copyInForwarded stdinLines
  let sends :=
    match fwd.getLast? with
    | none => fwd
    | some last => if last.data.getLast? = some '\n' then fwd else fwd ++ ["\n"]
  if "send" ∈ pgClientAttrNames then (sends ++ ["\\.\n"], .ok ())
  else (sends, .error .attributeError)

/-- C6 (code bug): the copy-in handler forwards source lines verbatim, stops
at the sentinel or end of source, and injects a missing trailing newline —
but its final `self.send('\\.\n')` names a method `PGClient` does not have
(the sender is the mangled private `_PGClient__send`), so the handler raises
`AttributeError` and the terminating sentinel line is never sent, contrary
to the claim (and to the handler's own comment). -/
theorem pkt_G_sentinel_never_sent :
    "send" ∉ pgClientAttrNames ∧
    pkt_G ["hello\n"] = (["hello\n"], .error .attributeError) ∧
    pkt_G ["a\n", "b"] = (["a\n", "b", "\n"], .error .attributeError) ∧
    pkt_G ["x\n", "\\.\n", "y\n"] = (["x\n"], .error .attributeError) ∧
    "\\.\n" ∉ (pkt_G ["hello\n"]).1 := by
  refine ⟨by decide, rfl, rfl, rfl, by decide⟩

/-! ## Large-object handles (`_LargeObject`, bpgsql.py lines 117-158, and
`PGClient._lo_funcall` / `lo_unlink`, lines 521-522 and 662-668) -/

/-- An argument to `PGClient.funcall`: an int (sent as 4-byte value) or a
byte string (sent length-prefixed). -/
inductive FuncArg where
  | int (n : Int)
  | bytes (b : Bytes)
  deriving Repr, DecidableEq

/-- A server function call as `_LargeObject` issues it through
`PGClient._lo_funcall`: catalog name plus arguments.  Theorems record these
to state which server calls an operation performs. -/
structure LoCall where
  name : String
  args : List FuncArg
  deriving Repr, DecidableEq

/-- `_LargeObject`'s instance attributes: the back-reference
`self.__client` and the descriptor `self.__fd`, both set to `None` by
`close`. -/
structure LargeObject where
  client : Option Nat
  fd : Option Int
  deriving Repr, DecidableEq

/-- `_LargeObject.close`: `try: self.__client._lo_funcall('lo_close',
self.__fd) finally: self.__client = self.__fd = None`.  `callFails` says
whether the underlying call raises (server error); on an already-closed
handle the attribute access on `None` raises instead.  Either way the
`finally` clears both attributes.  Result: (calls issued, outcome), new
handle state. -/
def LargeObject.close (o : LargeObject) (callFails : Bool) :
    (List LoCall × Except PyErr Unit) × LargeObject :=
  match o.client, o.fd with
  | some _, some fd =>
      (([⟨"lo_close", [.int fd]⟩],
        if callFails then .error (.databaseError "lo_close failed") else .ok ()),
       ⟨none, none⟩)
  | _, _ => (([], .error .attributeError), ⟨none, none⟩)

/-- `_LargeObject.read`: `self.__client._lo_funcall('loread', self.__fd,
len)`; on a closed handle the attribute access on `None` raises before any
server call. -/
def LargeObject.read (o : LargeObject) (len : Int) : Except PyErr (List LoCall) :=
  match o.client, o.fd with
  | some _, some fd => .ok [⟨"loread", [.int fd, .int len]⟩]
  | _, _ => .error .attributeError

/-- `_LargeObject.write`. -/
def LargeObject.write (o : LargeObject) (data : Bytes) : Except PyErr (List LoCall) :=
  match o.client, o.fd with
  | some _, some fd => .ok [⟨"lowrite", [.int fd, .bytes data]⟩]
  | _, _ => .error .attributeError

/-- `_LargeObject.seek`. -/
def LargeObject.seek (o : LargeObject) (offset whence : Int) : Except PyErr (List LoCall) :=
  match o.client, o.fd with
  | some _, some fd => .ok [⟨"lo_lseek", [.int fd, .int offset, .int whence]⟩]
  | _, _ => .error .attributeError

/-- `_LargeObject.tell`. -/
def LargeObject.tell (o : LargeObject) : Except PyErr (List LoCall) :=
  match o.client, o.fd with
  | some _, some fd => .ok [⟨"lo_tell", [.int fd]⟩]
  | _, _ => .error .attributeError

/-- C8: `close` clears the handle's connection back-reference (and
descriptor) unconditionally — in particular even when the underlying
`lo_close` call fails — and on a handle whose back-reference is cleared,
`read`, `write`, `seek` and `tell` all fail with the usage error raised by
touching the absent connection (Python's error on the `None`-valued
attribute) without issuing any server call, never silently succeeding. -/
theorem LargeObject_close_invalidates :
    (∀ (o : LargeObject) (callFails : Bool),
      (o.close callFails).2 = ⟨none, none⟩) ∧
    (∀ (o : LargeObject), o.client = none →
      (∀ len, o.read len = .error .attributeError) ∧
      (∀ data, o.write data = .error .attributeError) ∧
      (∀ offset whence, o.seek offset whence = .error .attributeError) ∧
      o.tell = .error .attributeError) := by
  constructor
  · intro o callFails
    rcases o with ⟨client, fd⟩
    cases client <;> cases fd <;> simp [LargeObject.close]
  · intro o hc
    rcases o with ⟨client, fd⟩
    cases hc
    exact ⟨fun len => rfl, fun data => rfl, fun offset whence => rfl, rfl⟩

/-- Witness for `LargeObject_close_invalidates`: close an open handle with
a failing underlying call, then watch each operation fail on the cleared
handle. -/
theorem LargeObject_close_invalidates_witness :
    ((⟨some 1, some 3⟩ : LargeObject).close true).2 = ⟨none, none⟩ ∧
    (⟨none, none⟩ : LargeObject).read 4096 = .error .attributeError ∧
    (⟨none, none⟩ : LargeObject).write [104, 105] = .error .attributeError ∧
    (⟨none, none⟩ : LargeObject).seek 0 0 = .error .attributeError ∧
    (⟨none, none⟩ : LargeObject).tell = .error .attributeError :=
  ⟨LargeObject_close_invalidates.1 ⟨some 1, some 3⟩ true,
   (LargeObject_close_invalidates.2 ⟨none, none⟩ rfl).1 4096,
   (LargeObject_close_invalidates.2 ⟨none, none⟩ rfl).2.1 [104, 105],
   (LargeObject_close_invalidates.2 ⟨none, none⟩ rfl).2.2.1 0 0,
   (LargeObject_close_invalidates.2 ⟨none, none⟩ rfl).2.2.2⟩

/-! ## `lo_unlink` (bpgsql.py lines 662-668) -/

/-- A `PGClient.funcall`: server function oid plus arguments. -/
structure FuncCall where
  oid : Nat
  args : List FuncArg
  deriving Repr, DecidableEq

/-- `PGClient.lo_unlink` after the catalog is populated: the body evaluates
`self.funcall(self.__funcs['lo_unlink'], oid)`.  `self.__funcs` mangles to
`_PGClient__funcs`, an attribute no code ever assigns (the catalog lives in
`_PGClient__lo_funcs`), so the lookup raises `AttributeError` before any
function call is issued — whatever the catalog holds. -/
def lo_unlink (catalog : List (String × Nat)) (oid : Int) : Except PyErr FuncCall :=
  if "_PGClient__funcs" ∈ pgClientAttrNames then
    match catalog.lookup "lo_unlink" with
    | some foid => .ok ⟨foid, [.int oid]⟩
    | none => .error .keyError
  else .error .attributeError

/-- The claim's behavior (comparison definition, written from the spec):
issue a function call whose identifier is the one resolved for the name
`lo_unlink` from the memoized catalog. -/
def lo_unlink_claimed (catalog : List (String × Nat)) (oid : Int) : Except PyErr FuncCall :=
  match catalog.lookup "lo_unlink" with
  | some foid => .ok ⟨foid, [.int oid]⟩
  | none => .error .keyError

/-- C9 (code bug): for every catalog — including one that resolves
`lo_unlink` — `lo_unlink` raises `AttributeError` because it reads the
never-assigned attribute `self.__funcs` instead of `self.__lo_funcs`; it
never issues the catalog-resolved function call the claim (and the method's
own docstring and the repository's tests) describe.  Evaluated concretely on
a catalog resolving `lo_unlink` to oid 964 and object oid 17. -/
theorem lo_unlink_reads_missing_attribute :
    (∀ (catalog : List (String × Nat)) (oid : Int),
      lo_unlink catalog oid = .error .attributeError) ∧
    "_PGClient__funcs" ∉ pgClientAttrNames ∧
    lo_unlink [("lo_creat", 957), ("lo_unlink", 964)] 17 = .error .attributeError ∧
    lo_unlink_claimed [("lo_creat", 957), ("lo_unlink", 964)] 17 = .ok ⟨964, [.int 17]⟩ ∧
    lo_unlink [("lo_creat", 957), ("lo_unlink", 964)] 17 ≠
      lo_unlink_claimed [("lo_creat", 957), ("lo_unlink", 964)] 17 := by
  refine ⟨fun catalog oid => ?_, by decide, rfl, rfl, fun h => Except.noConfusion h⟩
  simp [lo_unlink, show "_PGClient__funcs" ∉ pgClientAttrNames from by decide]

/-! ## Cursor scroll and fetch (spec §4.9)

The DB-API `Cursor` class that this repository's tests
(`CursorTests.test_scroll`) and its Django adapter call is not present under
src/ — only its callers are — so this layer is modelled from the spec. -/

/-- Modelled from the spec: the missing Cursor class's fetch-position state —
the rows of the result block the cursor is bound to, and `rownumber`. -/
structure Cursor where
  rows : List (List Field)
  rownumber : Nat
  deriving Repr, DecidableEq

/-- Modelled from the spec: move the cursor to an absolute target position;
a target outside `[0, rowcount)` is rejected with the bounds error
(`IndexError`, per the tests), leaving the cursor unchanged. -/
def Cursor.scrollTo (cur : Cursor) (target : Int) : Cursor × Option PyErr :=
  if 0 ≤ target ∧ target < (cur.rows.length : Int) then
    ({ cur with rownumber := target.toNat }, none)
  else
    (cur, some .indexError)

/-- Modelled from the spec: `scroll(value, mode)` — mode `"relative"` adds
`value` to rownumber, `"absolute"` sets rownumber to `value`.  Modes other
than the two the spec names are outside the model. -/
def Cursor.scroll (cur : Cursor) (value : Int) (mode : String) : Cursor × Option PyErr :=
  if mode = "relative" then cur.scrollTo ((cur.rownumber : Int) + value)
  else if mode = "absolute" then cur.scrollTo value
  else (cur, some .interfaceError)

/-- Modelled from the spec: `fetchone` reads the row at `rownumber` and
advances, or returns an empty result (no error) past the end. -/
def Cursor.fetchone (cur : Cursor) : Option (List Field) × Cursor :=
  match cur.rows[cur.rownumber]? with
  | some row => (some row, { cur with rownumber := cur.rownumber + 1 })
  | none => (none, cur)

/-- C5 (settled against the spec-modelled cursor, the class being absent
from src/): `scroll` with mode `"relative"` adds `value` to rownumber and
with `"absolute"` sets rownumber to `value`; any target outside `[0, R)` —
including position `R` itself and position `-1` — is rejected with the
bounds error leaving rownumber unchanged; `scroll(R-1, "absolute")` succeeds
on a non-empty result, after which one fetch returns the last row and the
next fetch returns an empty result. -/
theorem Cursor_scroll_bounds (cur : Cursor) (value : Int) (mode : String)
    (hmode : mode = "relative" ∨ mode = "absolute") :
    (let target : Int := if mode = "relative" then (cur.rownumber : Int) + value else value
     (0 ≤ target ∧ target < (cur.rows.length : Int) →
        cur.scroll value mode = ({ cur with rownumber := target.toNat }, none)) ∧
     (target < 0 ∨ (cur.rows.length : Int) ≤ target →
        cur.scroll value mode = (cur, some .indexError))) ∧
    cur.scroll (cur.rows.length : Int) "absolute" = (cur, some .indexError) ∧
    cur.scroll (-1) "absolute" = (cur, some .indexError) ∧
    (cur.rows ≠ [] →
      cur.scroll ((cur.rows.length : Int) - 1) "absolute" =
        ({ cur with rownumber := cur.rows.length - 1 }, none) ∧
      ({ cur with rownumber := cur.rows.length - 1 } : Cursor).fetchone =
        (cur.rows.getLast?, { cur with rownumber := cur.rows.length }) ∧
      (cur.rows.getLast?).isSome = true ∧
      ({ cur with rownumber := cur.rows.length } : Cursor).fetchone =
        (none, { cur with rownumber := cur.rows.length })) := by
  have habs : ∀ v : Int, cur.scroll v "absolute" = cur.scrollTo v := fun v => by
    simp [Cursor.scroll]
  have hrel : ∀ v : Int, cur.scroll v "relative" =
      cur.scrollTo ((cur.rownumber : Int) + v) := fun v => by
    simp [Cursor.scroll]
  have hin : ∀ t : Int, 0 ≤ t ∧ t < (cur.rows.length : Int) →
      cur.scrollTo t = ({ cur with rownumber := t.toNat }, none) := fun t h => by
    simp only [Cursor.scrollTo]
    rw [if_pos h]
  have hout : ∀ t : Int, t < 0 ∨ (cur.rows.length : Int) ≤ t →
      cur.scrollTo t = (cur, some .indexError) := fun t h => by
    simp only [Cursor.scrollTo]
    rw [if_neg (by omega)]
  refine ⟨⟨fun h => ?_, fun h => ?_⟩, ?_, ?_, fun hne => ?_⟩
  · rcases hmode with rfl | rfl
    · rw [hrel, hin _ (by simpa using h)]
      simp
    · rw [habs, hin _ (by simpa using h)]
      simp
  · rcases hmode with rfl | rfl
    · rw [hrel, hout _ (by simpa using h)]
    · rw [habs, hout _ (by simpa using h)]
  · rw [habs, hout _ (by omega)]
  · rw [habs, hout _ (by omega)]
  · have hpos : 0 < cur.rows.length := List.length_pos.mpr hne
    have hlt : cur.rows.length - 1 < cur.rows.length := by omega
    have hval := List.getElem?_eq_getElem hlt
    refine ⟨?_, ?_, ?_, ?_⟩
    · rw [habs, hin _ (by omega)]
      have : ((cur.rows.length : Int) - 1).toNat = cur.rows.length - 1 := by omega
      rw [this]
    · simp only [Cursor.fetchone, hval, List.getLast?_eq_getElem?]
      have : cur.rows.length - 1 + 1 = cur.rows.length := by omega
      rw [this]
    · rw [List.getLast?_eq_getElem?, List.getElem?_eq_getElem hlt]
      rfl
    · simp [Cursor.fetchone, List.getElem?_eq_none (Nat.le_refl _)]

/-- Witness for `Cursor_scroll_bounds`: a two-row cursor — `scroll(2,
"absolute")` and `scroll(-1, "absolute")` fail leaving rownumber 0,
`scroll(1, "absolute")` then fetch yields the second row then an empty
result. -/
theorem Cursor_scroll_bounds_witness :
    (Cursor.mk [[some [49]], [some [50]]] 0).scroll 2 "absolute" =
      (Cursor.mk [[some [49]], [some [50]]] 0, some .indexError) ∧
    (Cursor.mk [[some [49]], [some [50]]] 0).scroll (-1) "absolute" =
      (Cursor.mk [[some [49]], [some [50]]] 0, some .indexError) ∧
    (Cursor.mk [[some [49]], [some [50]]] 0).scroll 1 "absolute" =
      (Cursor.mk [[some [49]], [some [50]]] 1, none) ∧
    (Cursor.mk [[some [49]], [some [50]]] 1).fetchone =
      (some [some [50]], Cursor.mk [[some [49]], [some [50]]] 2) ∧
    (Cursor.mk [[some [49]], [some [50]]] 2).fetchone =
      (none, Cursor.mk [[some [49]], [some [50]]] 2) :=
  have h := Cursor_scroll_bounds (Cursor.mk [[some [49]], [some [50]]] 0) 2 "absolute"
    (Or.inr rfl)
  have h4 := (h.2.2.2 (by simp)).2.2.2
  ⟨h.2.1, h.2.2.1, (h.2.2.2 (by simp)).1, (h.2.2.2 (by simp)).2.1, h4⟩

end Bpgsql
